import Mathlib

/-!
Shallow embedding of `mersenne.py`: Mersenne's-law string-parameter
completion.  Machine floats are modelled by real numbers; a Python
expression that may raise (`KeyError` on a dict miss, `ZeroDivisionError`
on division by zero, `ValueError` from `math.sqrt` on a negative
argument, the explicit `RuntimeWarning`/`RuntimeError` raises in
`complete_data`) is modelled as an `Except MError` value.  The mutable
dictionary `data` is modelled by the record `StringData` of optional
fields; `complete_data` returns the record as mutated so far together
with the error, if any, mirroring in-place mutation that survives a
raise.
-/

open Real

/-- Errors a run of the program can raise. -/
inductive MError where
  /-- Python `KeyError from a dict subscript (carries the key). -/
  | keyError (key : String)
  /-- Python `ZeroDivisionError. -/
  | divisionByZero
  /-- Python `ValueError from `math.sqrt on a negative argument. -/
  | sqrtDomain
  /-- `RuntimeWarning("Nothing to compute"). -/
  | nothingToCompute
  /-- `RuntimeError listing the missing parameter names. -/
  | underdetermined (missing : List String)
deriving DecidableEq

/-- Python float division `a / b`: raises `ZeroDivisionError` when `b = 0`. -/
noncomputable def pydiv (a b : ℝ) : Except MError ℝ :=
  if b = 0 then .error .divisionByZero else .ok (a / b)

/-- Python `math.sqrt x`: raises `ValueError` ("math domain error") when `x < 0`. -/
noncomputable def pysqrt (x : ℝ) : Except MError ℝ :=
  if x < 0 then .error .sqrtDomain else .ok (Real.sqrt x)

/-- The module-level `notes` dict: 17 pitch-class aliases → semitone offset. -/
def notes : List (String × ℕ) :=
  [("c", 0),
   ("c#", 1), ("db", 1),
   ("d", 2),
   ("d#", 3), ("eb", 3),
   ("e", 4),
   ("f", 5),
   ("f#", 6), ("gb", 6),
   ("g", 7),
   ("g#", 8), ("ab", 8),
   ("a", 9),
   ("a#", 10), ("bb", 10),
   ("b", 11)]

/-- `note_to_freq(note, octave, basefreq) = basefreq * 2 ** (octave-4 + (notes[note]-9)/12)`;
the dict subscript `notes[note]` raises `KeyError` on an unknown name.
(The Python defaults `note="a"`, `octave=4`, `basefreq=440` are supplied
explicitly by the caller `complete_data`.) -/
noncomputable def note_to_freq (note : String) (octave : ℤ) (basefreq : ℝ) :
    Except MError ℝ :=
  match notes.lookup note with
  | none => .error (.keyError note)
  | some n => .ok (basefreq * (2 : ℝ) ^ (((octave : ℝ) - 4) + (((n : ℕ) : ℝ) - 9) / 12))

/-- `radius_to_linear_mass(radius, volumic_mass) = volumic_mass * pi * radius ** 2`
(total: no operation in it can raise on float inputs). -/
noncomputable def radius_to_linear_mass (radius volumic_mass : ℝ) : Except MError ℝ :=
  .ok (volumic_mass * Real.pi * radius ^ 2)

/-- `linear_mass_to_radius(linear_mass, volumic_mass) = sqrt(linear_mass / (volumic_mass * pi))`:
the division raises on `volumic_mass * π = 0`, the square root on a negative quotient. -/
noncomputable def linear_mass_to_radius (linear_mass volumic_mass : ℝ) : Except MError ℝ :=
  (pydiv linear_mass (volumic_mass * Real.pi)).bind pysqrt

/-- `get_freq(length, tension, linear_mass) = sqrt(tension / linear_mass) / (2 * length)`. -/
noncomputable def get_freq (length tension linear_mass : ℝ) : Except MError ℝ :=
  ((pydiv tension linear_mass).bind pysqrt).bind fun s => pydiv s (2 * length)

/-- `get_tension(linear_mass, length, freq) = (2 * freq * length) ** 2 * linear_mass` (total). -/
noncomputable def get_tension (linear_mass length freq : ℝ) : Except MError ℝ :=
  .ok ((2 * freq * length) ^ 2 * linear_mass)

/-- `get_linear_mass(tension, length, freq) = tension / (2 * freq * length) ** 2`. -/
noncomputable def get_linear_mass (tension length freq : ℝ) : Except MError ℝ :=
  pydiv tension ((2 * freq * length) ^ 2)

/-- `get_length(linear_mass, tension, freq) = sqrt(tension / linear_mass) / (2 * freq)`. -/
noncomputable def get_length (linear_mass tension freq : ℝ) : Except MError ℝ :=
  ((pydiv tension linear_mass).bind pysqrt).bind fun s => pydiv s (2 * freq)

/-- The `data` dict restricted to the ten recognized parameter names.
`note` holds a string, `octave` an `int` (the CLI parses it with
`type=int`), every other parameter a float. -/
structure StringData where
  freq : Option ℝ
  tension : Option ℝ
  linear_mass : Option ℝ
  length : Option ℝ
  note : Option String
  octave : Option ℤ
  basefreq : Option ℝ
  diameter : Option ℝ
  radius : Option ℝ
  volumic_mass : Option ℝ

/-- The `missing` list built by `complete_data`'s loop over
`["freq", "tension", "linear_mass", "length"]`, in that order. -/
def missingOf (d : StringData) : List String :=
  (if d.freq.isSome then [] else ["freq"]) ++
  (if d.tension.isSome then [] else ["tension"]) ++
  (if d.linear_mass.isSome then [] else ["linear_mass"]) ++
  (if d.length.isSome then [] else ["length"])

/-- First block of `complete_data`: if `freq` is absent and `note` present,
derive `freq` via `note_to_freq`, defaulting `octave` to 4 and `basefreq`
to 440 when absent.  A `KeyError` from the lookup propagates before the
assignment, leaving the dict unchanged. -/
noncomputable def step_note (d : StringData) : StringData × Option MError :=
  match d.freq, d.note with
  | none, some nt =>
    match note_to_freq nt (d.octave.getD 4) (d.basefreq.getD 440) with
    | .ok f => ({ d with freq := some f }, none)
    | .error e => (d, some e)
  | _, _ => (d, none)

/-- Second block: if `diameter` is present, set `radius = diameter / 2`
(unconditionally, overwriting any supplied radius). -/
noncomputable def step_diameter (d : StringData) : StringData :=
  match d.diameter with
  | some dia => { d with radius := some (dia / 2) }
  | none => d

/-- Third block: if `linear_mass` is absent and both `radius` and
`volumic_mass` are present, derive it via `radius_to_linear_mass`. -/
noncomputable def step_linmass (d : StringData) : StringData × Option MError :=
  match d.linear_mass, d.radius, d.volumic_mass with
  | none, some r, some v =>
    match radius_to_linear_mass r v with
    | .ok lm => ({ d with linear_mass := some lm }, none)
    | .error e => (d, some e)
  | _, _, _ => (d, none)

/-- Fourth block: partition the four primaries into present/missing and act:
all present raises the "Nothing to compute" warning, two or more missing
raises the `RuntimeError` listing them, exactly one missing is computed by
the matching formula called on the three available values. -/
noncomputable def step_primary (d : StringData) : StringData × Option MError :=
  match d.freq, d.tension, d.linear_mass, d.length with
  | some _, some _, some _, some _ => (d, some .nothingToCompute)
  | none, some t, some lm, some L =>
    (match get_freq L t lm with
     | .ok f => ({ d with freq := some f }, none)
     | .error e => (d, some e))
  | some f, none, some lm, some L =>
    (match get_tension lm L f with
     | .ok t => ({ d with tension := some t }, none)
     | .error e => (d, some e))
  | some f, some t, none, some L =>
    (match get_linear_mass t L f with
     | .ok lm => ({ d with linear_mass := some lm }, none)
     | .error e => (d, some e))
  | some f, some t, some lm, none =>
    (match get_length lm t f with
     | .ok L => ({ d with length := some L }, none)
     | .error e => (d, some e))
  | _, _, _, _ => (d, some (.underdetermined (missingOf d)))

/-- Last block: if `radius` is still absent and `volumic_mass` present,
derive `radius` from `data["linear_mass"]` (a `KeyError` if that key is
somehow absent) and then set `diameter = radius * 2`. -/
noncomputable def step_radius (d : StringData) : StringData × Option MError :=
  match d.radius, d.volumic_mass with
  | none, some v =>
    match d.linear_mass with
    | none => (d, some (.keyError "linear_mass"))
    | some lm =>
      match linear_mass_to_radius lm v with
      | .ok r => ({ d with radius := some r, diameter := some (r * 2) }, none)
      | .error e => (d, some e)
  | _, _ => (d, none)

/-- Sequencing with raise semantics: an error short-circuits, keeping the
dict state reached so far. -/
def raiseSeq (r : StringData × Option MError)
    (k : StringData → StringData × Option MError) : StringData × Option MError :=
  match r.2 with
  | some e => (r.1, some e)
  | none => k r.1

/-- `complete_data(data)`: the four blocks in source order, each raise
propagating with the dict left as mutated so far. -/
noncomputable def complete_data (d : StringData) : StringData × Option MError :=
  raiseSeq (step_note d) fun d1 =>
    raiseSeq (step_linmass (step_diameter d1)) fun d3 =>
      raiseSeq (step_primary d3) step_radius

/-! ### Basic lemmas about the Python-operation wrappers -/

theorem pydiv_ok {a b : ℝ} (hb : b ≠ 0) : pydiv a b = .ok (a / b) := by
  simp [pydiv, hb]

theorem pysqrt_ok {x : ℝ} (hx : 0 ≤ x) : pysqrt x = .ok (Real.sqrt x) := by
  simp [pysqrt, not_lt.mpr hx]

theorem pydiv_err {a b : ℝ} {e : MError} (h : pydiv a b = .error e) :
    e = .divisionByZero := by
  by_cases hb : b = 0 <;> simp [pydiv, hb] at h
  exact h.symm

theorem pysqrt_err {x : ℝ} {e : MError} (h : pysqrt x = .error e) :
    e = .sqrtDomain := by
  by_cases hx : x < 0 <;> simp [pysqrt, hx] at h
  exact h.symm

theorem get_freq_ok {L T μ : ℝ} (hL : L ≠ 0) (hμ : μ ≠ 0) (hTμ : 0 ≤ T / μ) :
    get_freq L T μ = .ok (Real.sqrt (T / μ) / (2 * L)) := by
  rw [get_freq, pydiv_ok hμ]
  rw [show Except.bind (Except.ok (T / μ)) pysqrt = pysqrt (T / μ) from rfl,
    pysqrt_ok hTμ]
  rw [show ∀ f : ℝ → Except MError ℝ,
      Except.bind (Except.ok (Real.sqrt (T / μ))) f = f (Real.sqrt (T / μ)) from fun _ => rfl]
  exact pydiv_ok (by simpa using hL)

theorem get_length_ok {f T μ : ℝ} (hf : f ≠ 0) (hμ : μ ≠ 0) (hTμ : 0 ≤ T / μ) :
    get_length μ T f = .ok (Real.sqrt (T / μ) / (2 * f)) := by
  rw [get_length, pydiv_ok hμ]
  rw [show Except.bind (Except.ok (T / μ)) pysqrt = pysqrt (T / μ) from rfl,
    pysqrt_ok hTμ]
  rw [show ∀ g : ℝ → Except MError ℝ,
      Except.bind (Except.ok (Real.sqrt (T / μ))) g = g (Real.sqrt (T / μ)) from fun _ => rfl]
  exact pydiv_ok (by simpa using hf)

theorem get_tension_ok (μ L f : ℝ) :
    get_tension μ L f = .ok ((2 * f * L) ^ 2 * μ) := rfl

theorem get_linear_mass_ok {T L f : ℝ} (h : 2 * f * L ≠ 0) :
    get_linear_mass T L f = .ok (T / (2 * f * L) ^ 2) :=
  pydiv_ok (pow_ne_zero 2 h)

/-- Generic: a `List.lookup` succeeds exactly when the key occurs among the
first components. -/
theorem lookup_isSome_iff_mem {α β : Type} [BEq α] [LawfulBEq α]
    (l : List (α × β)) (a : α) :
    (l.lookup a).isSome = true ↔ a ∈ l.map Prod.fst := by
  induction l with
  | nil => simp [List.lookup]
  | cons p t ih =>
    obtain ⟨k, v⟩ := p
    by_cases hk : a = k
    · subst hk
      simp [List.lookup]
    · have hk' : (a == k) = false := beq_false_of_ne hk
      simp [List.lookup, hk', hk, ih]

/-! ### C1: the frequency formula -/

/-- C1 (amended): for all positive finite `length`, `tension`, `linear_mass`,
`get_freq` succeeds and returns `sqrt(tension / linear_mass) / (2 * length)` —
the code divides by `2 * length`, it does not multiply by `length / 2` as the
claim states. -/
theorem get_freq_formula (L T μ : ℝ) (hL : 0 < L) (hT : 0 < T) (hμ : 0 < μ) :
    get_freq L T μ = .ok (Real.sqrt (T / μ) / (2 * L)) :=
  get_freq_ok hL.ne' hμ.ne' (div_nonneg hT.le hμ.le)

/-- Witness for C1's amended theorem at `length = 1`, `tension = 1`,
`linear_mass = 1`. -/
theorem get_freq_formula_witness :
    (0 : ℝ) < 1 ∧ get_freq 1 1 1 = .ok (Real.sqrt (1 / 1) / (2 * 1)) :=
  ⟨one_pos, get_freq_formula 1 1 1 one_pos one_pos one_pos⟩

/-- C1 (counterexample): at `length = 2`, `tension = 1`, `linear_mass = 1`
the code returns `1/4`, while the claimed formula `(length/2) · sqrt(T/μ)`
gives `1`. -/
theorem get_freq_claim_counterexample :
    get_freq 2 1 1 = .ok (1 / 4) ∧
      ((2 : ℝ) / 2) * Real.sqrt (1 / 1) = 1 ∧ ((1 : ℝ) / 4) ≠ 1 := by
  refine ⟨?_, by norm_num [Real.sqrt_one], by norm_num⟩
  rw [get_freq_ok (two_ne_zero) (one_ne_zero) (by norm_num)]
  norm_num [Real.sqrt_one]

/-! ### C3: the four round-trip laws -/

/-- C3: for positive inputs, each solver formula is undone by its inverse:
`get_length` recovers `length` from the `get_freq` output, `get_freq`
recovers `freq` from the `get_length` output, `get_linear_mass` recovers
`linear_mass` from the `get_tension` output, and `get_tension` recovers
`tension` from the `get_linear_mass` output. -/
theorem mersenne_roundtrip (L T μ f : ℝ)
    (hL : 0 < L) (hT : 0 < T) (hμ : 0 < μ) (hf : 0 < f) :
    (∀ x, get_freq L T μ = .ok x → get_length μ T x = .ok L)
  ∧ (∀ x, get_length μ T f = .ok x → get_freq x T μ = .ok f)
  ∧ (∀ x, get_tension μ L f = .ok x → get_linear_mass x L f = .ok μ)
  ∧ (∀ x, get_linear_mass T L f = .ok x → get_tension x L f = .ok T) := by
  have hTμ : 0 < T / μ := div_pos hT hμ
  have hs : 0 < Real.sqrt (T / μ) := Real.sqrt_pos.mpr hTμ
  refine ⟨?_, ?_, ?_, ?_⟩
  · intro x hx
    rw [get_freq_ok hL.ne' hμ.ne' hTμ.le] at hx
    have hxval : x = Real.sqrt (T / μ) / (2 * L) := by
      simpa using hx.symm
    have hxpos : 0 < x := hxval ▸ div_pos hs (by positivity)
    have heq : Real.sqrt (T / μ) / (2 * x) = L := by
      rw [hxval]
      field_simp
      ring
    rw [get_length_ok hxpos.ne' hμ.ne' hTμ.le, heq]
  · intro x hx
    rw [get_length_ok hf.ne' hμ.ne' hTμ.le] at hx
    have hxval : x = Real.sqrt (T / μ) / (2 * f) := by
      simpa using hx.symm
    have hxpos : 0 < x := hxval ▸ div_pos hs (by positivity)
    have heq : Real.sqrt (T / μ) / (2 * x) = f := by
      rw [hxval]
      field_simp
      ring
    rw [get_freq_ok hxpos.ne' hμ.ne' hTμ.le, heq]
  · intro x hx
    rw [get_tension_ok] at hx
    have hxval : x = (2 * f * L) ^ 2 * μ := by
      simpa using hx.symm
    have h2fL : 2 * f * L ≠ 0 := by positivity
    have heq : x / (2 * f * L) ^ 2 = μ := by
      rw [hxval]
      exact mul_div_cancel_left₀ μ (pow_ne_zero 2 h2fL)
    rw [get_linear_mass_ok h2fL, heq]
  · intro x hx
    have h2fL : 2 * f * L ≠ 0 := by positivity
    rw [get_linear_mass_ok h2fL] at hx
    have hxval : x = T / (2 * f * L) ^ 2 := by
      simpa using hx.symm
    have heq : (2 * f * L) ^ 2 * x = T := by
      rw [hxval]
      field_simp
    rw [get_tension_ok, heq]

/-- Witness for C3 at `length = tension = linear_mass = freq = 1`. -/
theorem mersenne_roundtrip_witness :
    get_freq 1 1 1 = .ok (1 / 2) ∧ get_length 1 1 (1 / 2) = .ok 1 ∧
      get_tension 1 1 1 = .ok 4 ∧ get_linear_mass 4 1 1 = .ok 1 := by
  have h1 : get_freq 1 1 1 = .ok (1 / 2) := by
    rw [get_freq_ok one_ne_zero one_ne_zero (by norm_num)]
    norm_num [Real.sqrt_one]
  have h3 : get_tension 1 1 1 = .ok 4 := by
    rw [get_tension_ok]
    norm_num
  exact ⟨h1, (mersenne_roundtrip 1 1 1 1 one_pos one_pos one_pos one_pos).1 (1 / 2) h1,
    h3, (mersenne_roundtrip 1 1 1 1 one_pos one_pos one_pos one_pos).2.2.1 4 h3⟩

/-! ### C5: radius/linear-mass inverse law -/

/-- C5: for all `r, v > 0`, converting a radius to a linear mass and back
recovers the radius exactly. -/
theorem radius_linear_mass_inverse (r v : ℝ) (hr : 0 < r) (hv : 0 < v) :
    ∀ lm, radius_to_linear_mass r v = .ok lm → linear_mass_to_radius lm v = .ok r := by
  intro lm hlm
  have hlmval : lm = v * Real.pi * r ^ 2 := by
    simpa [radius_to_linear_mass] using hlm.symm
  have hvπ : v * Real.pi ≠ 0 := by positivity
  rw [linear_mass_to_radius, pydiv_ok hvπ, hlmval]
  have hq : v * Real.pi * r ^ 2 / (v * Real.pi) = r ^ 2 :=
    mul_div_cancel_left₀ (r ^ 2) hvπ
  rw [show Except.bind (Except.ok (v * Real.pi * r ^ 2 / (v * Real.pi))) pysqrt
      = pysqrt (v * Real.pi * r ^ 2 / (v * Real.pi)) from rfl, hq,
    pysqrt_ok (sq_nonneg r), Real.sqrt_sq hr.le]

/-- Witness for C5 at `r = v = 1`. -/
theorem radius_linear_mass_inverse_witness :
    radius_to_linear_mass 1 1 = .ok (1 * Real.pi * 1 ^ 2) ∧
      linear_mass_to_radius (1 * Real.pi * 1 ^ 2) 1 = .ok 1 :=
  ⟨rfl, radius_linear_mass_inverse 1 1 one_pos one_pos _ rfl⟩

/-! ### C7: domain of the radius/linear-mass conversions -/

/-- C7 (amended): `radius_to_linear_mass` never fails — it returns
`volumic_mass · π · radius²` for every input, including non-positive
`volumic_mass`; `linear_mass_to_radius` fails with a division-by-zero
error when `volumic_mass = 0`, fails with a sqrt-domain error when
`volumic_mass < 0 < linear_mass`, and succeeds whenever
`volumic_mass > 0` and `linear_mass ≥ 0`. -/
theorem conversion_domain (r lm v : ℝ) :
    radius_to_linear_mass r v = .ok (v * Real.pi * r ^ 2)
  ∧ (0 < v → 0 ≤ lm →
      linear_mass_to_radius lm v = .ok (Real.sqrt (lm / (v * Real.pi))))
  ∧ (v = 0 → linear_mass_to_radius lm v = .error .divisionByZero)
  ∧ (v < 0 → 0 < lm → linear_mass_to_radius lm v = .error .sqrtDomain) := by
  refine ⟨rfl, ?_, ?_, ?_⟩
  · intro hv hlm
    have hvπ : v * Real.pi ≠ 0 := by positivity
    have hq : 0 ≤ lm / (v * Real.pi) :=
      div_nonneg hlm (by positivity)
    rw [linear_mass_to_radius, pydiv_ok hvπ]
    rw [show Except.bind (Except.ok (lm / (v * Real.pi))) pysqrt
        = pysqrt (lm / (v * Real.pi)) from rfl, pysqrt_ok hq]
  · intro hv
    simp [linear_mass_to_radius, pydiv, hv, Except.bind]
  · intro hv hlm
    have hvπ : v * Real.pi < 0 := mul_neg_of_neg_of_pos hv Real.pi_pos
    have hq : lm / (v * Real.pi) < 0 := div_neg_of_pos_of_neg hlm hvπ
    rw [linear_mass_to_radius, pydiv_ok hvπ.ne]
    rw [show Except.bind (Except.ok (lm / (v * Real.pi))) pysqrt
        = pysqrt (lm / (v * Real.pi)) from rfl]
    simp [pysqrt, hq]

/-- Witness for C7's amended theorem: all three failure/success modes at
concrete inputs. -/
theorem conversion_domain_witness :
    radius_to_linear_mass 1 1 = .ok (1 * Real.pi * 1 ^ 2) ∧
      linear_mass_to_radius 1 1 = .ok (Real.sqrt (1 / (1 * Real.pi))) ∧
      linear_mass_to_radius 1 0 = .error .divisionByZero ∧
      linear_mass_to_radius 1 (-1) = .error .sqrtDomain :=
  ⟨(conversion_domain 1 1 1).1,
   (conversion_domain 1 1 1).2.1 one_pos zero_le_one,
   (conversion_domain 1 1 0).2.2.1 rfl,
   (conversion_domain 1 1 (-1)).2.2.2 (by norm_num) one_pos⟩

/-- C7 (counterexample): `radius_to_linear_mass` succeeds at
`volumic_mass = -1`, returning `-π`, where the claim says both conversions
fail for `volumic_mass ≤ 0`. -/
theorem conversion_domain_counterexample :
    radius_to_linear_mass 1 (-1) = .ok (-Real.pi) := by
  rw [radius_to_linear_mass]
  norm_num

/-! ### C4: the note-to-frequency formula -/

/-- C4: for every recognized note name with offset `n`, `note_to_freq`
returns `basefreq · 2^((octave−4) + (n−9)/12)`; in particular
`note_to_freq "a" 4 440 = 440` exactly, `note_to_freq "a" 5 440 = 880`,
and `"c#"` and `"db"` give equal frequencies. -/
theorem note_to_freq_formula (note : String) (n : ℕ) (octave : ℤ) (basefreq : ℝ)
    (h : notes.lookup note = some n) :
    note_to_freq note octave basefreq =
      .ok (basefreq * (2 : ℝ) ^ (((octave : ℝ) - 4) + ((n : ℝ) - 9) / 12))
  ∧ note_to_freq "a" 4 440 = .ok 440
  ∧ note_to_freq "a" 5 440 = .ok 880
  ∧ note_to_freq "c#" 4 440 = note_to_freq "db" 4 440 := by
  refine ⟨by simp [note_to_freq, h], ?_, ?_, ?_⟩
  · have hl : notes.lookup "a" = some 9 := by decide
    have he : (((4 : ℤ) : ℝ) - 4) + (((9 : ℕ) : ℝ) - 9) / 12 = 0 := by norm_num
    simp only [note_to_freq, hl, he, Real.rpow_zero, mul_one]
  · have hl : notes.lookup "a" = some 9 := by decide
    have he : (((5 : ℤ) : ℝ) - 4) + (((9 : ℕ) : ℝ) - 9) / 12 = 1 := by norm_num
    simp only [note_to_freq, hl, he, Real.rpow_one]
    norm_num
  · simp only [note_to_freq,
      show notes.lookup "c#" = some 1 from by decide,
      show notes.lookup "db" = some 1 from by decide]

/-- Witness for C4 at note `"a"` (offset 9). -/
theorem note_to_freq_formula_witness :
    notes.lookup "a" = some 9 ∧ note_to_freq "a" 4 440 = .ok 440 :=
  ⟨by decide, (note_to_freq_formula "a" 9 4 440 (by decide)).2.1⟩

/-! ### C6: which note names are accepted -/

/-- C6 (amended): note lookup is case-sensitive — `note_to_freq` succeeds
exactly for the 17 recognized lower-case aliases (the keys of `notes`),
a list of length 17, and fails with a `KeyError` on anything else. -/
theorem note_aliases (s : String) (o : ℤ) (b : ℝ) :
    ((∃ y, note_to_freq s o b = .ok y) ↔ s ∈ notes.map Prod.fst)
  ∧ (notes.map Prod.fst).length = 17
  ∧ (s ∉ notes.map Prod.fst → note_to_freq s o b = .error (.keyError s)) := by
  have hiff : (notes.lookup s).isSome = true ↔ s ∈ notes.map Prod.fst :=
    lookup_isSome_iff_mem notes s
  refine ⟨?_, by decide, ?_⟩
  · rw [← hiff]
    cases h : notes.lookup s with
    | none => simp [note_to_freq, h]
    | some n => simp [note_to_freq, h]
  · intro hs
    have : notes.lookup s = none := by
      cases h : notes.lookup s with
      | none => rfl
      | some n =>
        exact absurd (hiff.mp (by rw [h]; rfl)) hs
    rw [note_to_freq, this]

/-- C6 (counterexample): the upper-case `"A"` is rejected although the claim
says note names are accepted case-insensitively. -/
theorem note_case_counterexample :
    note_to_freq "A" 4 440 = .error (.keyError "A") := by
  rw [note_to_freq, show notes.lookup "A" = none from by decide]

/-- Witness for C6's amended theorem at `"a"`. -/
theorem note_aliases_witness :
    ("a" ∉ notes.map Prod.fst → note_to_freq "a" 4 440 = .error (.keyError "a")) ∧
      ("a" ∈ notes.map Prod.fst) :=
  ⟨(note_aliases "a" 4 440).2.2, by decide⟩

/-! ### Lemmas about the pipeline steps -/

theorem bind_err {α β : Type} {x : Except MError α} {f : α → Except MError β}
    {e : MError} (h : x.bind f = .error e) :
    x = .error e ∨ ∃ a, x = .ok a ∧ f a = .error e := by
  cases x with
  | ok a => exact Or.inr ⟨a, rfl, h⟩
  | error e' =>
    left
    simpa [Except.bind] using h

theorem get_freq_err {L T μ : ℝ} {e : MError} (h : get_freq L T μ = .error e) :
    e = .divisionByZero ∨ e = .sqrtDomain := by
  rcases bind_err h with h' | ⟨s, _, h'⟩
  · rcases bind_err h' with h'' | ⟨q, _, h''⟩
    · exact Or.inl (pydiv_err h'')
    · exact Or.inr (pysqrt_err h'')
  · exact Or.inl (pydiv_err h')

theorem get_length_err {f T μ : ℝ} {e : MError} (h : get_length μ T f = .error e) :
    e = .divisionByZero ∨ e = .sqrtDomain := by
  rcases bind_err h with h' | ⟨s, _, h'⟩
  · rcases bind_err h' with h'' | ⟨q, _, h''⟩
    · exact Or.inl (pydiv_err h'')
    · exact Or.inr (pysqrt_err h'')
  · exact Or.inl (pydiv_err h')

theorem get_tension_err {μ L f : ℝ} {e : MError} (h : get_tension μ L f = .error e) :
    False := by
  simp [get_tension] at h

theorem get_linear_mass_err {T L f : ℝ} {e : MError}
    (h : get_linear_mass T L f = .error e) :
    e = .divisionByZero ∨ e = .sqrtDomain :=
  Or.inl (pydiv_err h)

theorem note_to_freq_err {nt : String} {o : ℤ} {b : ℝ} {e : MError}
    (h : note_to_freq nt o b = .error e) : e = .keyError nt := by
  rw [note_to_freq] at h
  cases hl : notes.lookup nt with
  | none =>
    rw [hl] at h
    exact (Except.error.inj h).symm
  | some n =>
    rw [hl] at h
    cases h


theorem step_note_frame (d : StringData) :
    (step_note d).1.tension = d.tension ∧ (step_note d).1.linear_mass = d.linear_mass
  ∧ (step_note d).1.length = d.length ∧ (step_note d).1.note = d.note
  ∧ (step_note d).1.octave = d.octave ∧ (step_note d).1.basefreq = d.basefreq
  ∧ (step_note d).1.diameter = d.diameter ∧ (step_note d).1.radius = d.radius
  ∧ (step_note d).1.volumic_mass = d.volumic_mass := by
  obtain ⟨fq, tn, lm, ln, nt, oc, bf, dia, rad, vm⟩ := d
  cases fq with
  | some f => simp [step_note]
  | none =>
    cases nt with
    | none => simp [step_note]
    | some s =>
      simp only [step_note]
      cases note_to_freq s (Option.getD oc 4) (Option.getD bf 440) with
      | ok f => simp
      | error e => simp

theorem step_note_freq_some (d : StringData) {x : ℝ} (h : d.freq = some x) :
    step_note d = (d, none) := by
  obtain ⟨fq, tn, lm, ln, nt, oc, bf, dia, rad, vm⟩ := d
  simp at h
  rw [h]
  rfl

theorem step_note_no_note (d : StringData) (h : d.note = none) :
    step_note d = (d, none) := by
  obtain ⟨fq, tn, lm, ln, nt, oc, bf, dia, rad, vm⟩ := d
  simp at h
  subst h
  cases fq <;> rfl

theorem step_note_derive (d : StringData) {nt : String} {f : ℝ}
    (hf : d.freq = none) (hn : d.note = some nt)
    (hok : note_to_freq nt (d.octave.getD 4) (d.basefreq.getD 440) = .ok f) :
    step_note d = ({ d with freq := some f }, none) := by
  obtain ⟨fq, tn, lm, ln, nt', oc, bf, dia, rad, vm⟩ := d
  simp at hf hn
  subst hf
  subst hn
  simp only [step_note]
  rw [hok]

theorem step_note_err {d : StringData} {e : MError}
    (h : (step_note d).2 = some e) :
    (∃ k, e = .keyError k) ∧ (step_note d).1 = d := by
  obtain ⟨fq, tn, lm, ln, nt, oc, bf, dia, rad, vm⟩ := d
  cases fq with
  | some f => cases h
  | none =>
    cases nt with
    | none => cases h
    | some s =>
      simp only [step_note] at h ⊢
      generalize hr : note_to_freq s (Option.getD oc 4) (Option.getD bf 440) = res at h ⊢
      cases res with
      | ok f => cases h
      | error e' =>
        refine ⟨⟨s, ?_⟩, rfl⟩
        have hk := note_to_freq_err hr
        have he : e' = e := Option.some.inj h
        rw [← he, hk]

theorem step_diameter_none (d : StringData) (h : d.diameter = none) :
    step_diameter d = d := by
  obtain ⟨fq, tn, lm, ln, nt, oc, bf, dia, rad, vm⟩ := d
  simp at h
  subst h
  rfl

theorem step_diameter_some (d : StringData) {dia : ℝ} (h : d.diameter = some dia) :
    step_diameter d = { d with radius := some (dia / 2) } := by
  obtain ⟨fq, tn, lm, ln, nt, oc, bf, dia', rad, vm⟩ := d
  simp at h
  subst h
  rfl

theorem step_diameter_frame (d : StringData) :
    (step_diameter d).freq = d.freq ∧ (step_diameter d).tension = d.tension
  ∧ (step_diameter d).linear_mass = d.linear_mass ∧ (step_diameter d).length = d.length
  ∧ (step_diameter d).note = d.note ∧ (step_diameter d).octave = d.octave
  ∧ (step_diameter d).basefreq = d.basefreq ∧ (step_diameter d).diameter = d.diameter
  ∧ (step_diameter d).volumic_mass = d.volumic_mass := by
  obtain ⟨fq, tn, lm, ln, nt, oc, bf, dia, rad, vm⟩ := d
  cases dia <;> simp [step_diameter]

theorem step_linmass_snd (d : StringData) : (step_linmass d).2 = none := by
  obtain ⟨fq, tn, lm, ln, nt, oc, bf, dia, rad, vm⟩ := d
  cases lm with
  | some x => rfl
  | none =>
    cases rad with
    | none => rfl
    | some r =>
      cases vm with
      | none => rfl
      | some v => rfl

theorem step_linmass_frame (d : StringData) :
    (step_linmass d).1.freq = d.freq ∧ (step_linmass d).1.tension = d.tension
  ∧ (step_linmass d).1.length = d.length ∧ (step_linmass d).1.note = d.note
  ∧ (step_linmass d).1.octave = d.octave ∧ (step_linmass d).1.basefreq = d.basefreq
  ∧ (step_linmass d).1.diameter = d.diameter ∧ (step_linmass d).1.radius = d.radius
  ∧ (step_linmass d).1.volumic_mass = d.volumic_mass := by
  obtain ⟨fq, tn, lm, ln, nt, oc, bf, dia, rad, vm⟩ := d
  cases lm with
  | some x => simp [step_linmass]
  | none =>
    cases rad with
    | none => simp [step_linmass]
    | some r =>
      cases vm with
      | none => simp [step_linmass]
      | some v => simp [step_linmass, radius_to_linear_mass]

theorem step_linmass_some (d : StringData) {x : ℝ} (h : d.linear_mass = some x) :
    step_linmass d = (d, none) := by
  obtain ⟨fq, tn, lm, ln, nt, oc, bf, dia, rad, vm⟩ := d
  simp at h
  subst h
  rfl

theorem step_linmass_derive (d : StringData) {r v : ℝ}
    (hlm : d.linear_mass = none) (hr : d.radius = some r) (hv : d.volumic_mass = some v) :
    step_linmass d = ({ d with linear_mass := some (v * Real.pi * r ^ 2) }, none) := by
  obtain ⟨fq, tn, lm, ln, nt, oc, bf, dia, rad, vm⟩ := d
  simp at hlm hr hv
  subst hlm
  subst hr
  subst hv
  rfl

theorem linear_mass_to_radius_err {lm v : ℝ} {e : MError}
    (h : linear_mass_to_radius lm v = .error e) :
    e = .divisionByZero ∨ e = .sqrtDomain := by
  rcases bind_err h with h' | ⟨q, _, h'⟩
  · exact Or.inl (pydiv_err h')
  · exact Or.inr (pysqrt_err h')

theorem raiseSeq_none {r : StringData × Option MError}
    {k : StringData → StringData × Option MError} (h : r.2 = none) :
    raiseSeq r k = k r.1 := by
  simp [raiseSeq, h]

theorem raiseSeq_some {r : StringData × Option MError} {e : MError}
    {k : StringData → StringData × Option MError} (h : r.2 = some e) :
    raiseSeq r k = (r.1, some e) := by
  simp [raiseSeq, h]

/-- Complete case analysis of the fourth block: either all four primaries are
present (warning), or exactly one is missing (computed by the matching
formula, or its arithmetic error propagates), or two or more are missing
(the `RuntimeError` listing them). -/
theorem step_primary_master (d : StringData) :
    (missingOf d = [] ∧ step_primary d = (d, some .nothingToCompute))
  ∨ (missingOf d = ["freq"] ∧ d.freq = none ∧ ∃ t lm L, d.tension = some t
      ∧ d.linear_mass = some lm ∧ d.length = some L
      ∧ ((∃ x, get_freq L t lm = .ok x ∧ step_primary d = ({ d with freq := some x }, none))
        ∨ (∃ e, get_freq L t lm = .error e ∧ step_primary d = (d, some e))))
  ∨ (missingOf d = ["tension"] ∧ d.tension = none ∧ ∃ f lm L, d.freq = some f
      ∧ d.linear_mass = some lm ∧ d.length = some L
      ∧ ((∃ x, get_tension lm L f = .ok x ∧ step_primary d = ({ d with tension := some x }, none))
        ∨ (∃ e, get_tension lm L f = .error e ∧ step_primary d = (d, some e))))
  ∨ (missingOf d = ["linear_mass"] ∧ d.linear_mass = none ∧ ∃ f t L, d.freq = some f
      ∧ d.tension = some t ∧ d.length = some L
      ∧ ((∃ x, get_linear_mass t L f = .ok x ∧ step_primary d = ({ d with linear_mass := some x }, none))
        ∨ (∃ e, get_linear_mass t L f = .error e ∧ step_primary d = (d, some e))))
  ∨ (missingOf d = ["length"] ∧ d.length = none ∧ ∃ f t lm, d.freq = some f
      ∧ d.tension = some t ∧ d.linear_mass = some lm
      ∧ ((∃ x, get_length lm t f = .ok x ∧ step_primary d = ({ d with length := some x }, none))
        ∨ (∃ e, get_length lm t f = .error e ∧ step_primary d = (d, some e))))
  ∨ (2 ≤ (missingOf d).length ∧ step_primary d = (d, some (.underdetermined (missingOf d)))) := by
  obtain ⟨fq, tn, lm, ln, nt, oc, bf, dia, rad, vm⟩ := d
  cases fq with
  | none =>
    cases tn with
    | none =>
      exact Or.inr (Or.inr (Or.inr (Or.inr (Or.inr
        ⟨by cases lm <;> cases ln <;> simp [missingOf], rfl⟩))))
    | some t =>
      cases lm with
      | none =>
        exact Or.inr (Or.inr (Or.inr (Or.inr (Or.inr
          ⟨by cases ln <;> simp [missingOf], rfl⟩))))
      | some lmv =>
        cases ln with
        | none =>
          exact Or.inr (Or.inr (Or.inr (Or.inr (Or.inr
            ⟨by simp [missingOf], rfl⟩))))
        | some lnv =>
          refine Or.inr (Or.inl ⟨by simp [missingOf], rfl, t, lmv, lnv, rfl, rfl, rfl, ?_⟩)
          cases hF : get_freq lnv t lmv with
          | ok x => exact Or.inl ⟨x, rfl, by simp [step_primary, hF]⟩
          | error e => exact Or.inr ⟨e, rfl, by simp [step_primary, hF]⟩
  | some f =>
    cases tn with
    | none =>
      cases lm with
      | none =>
        exact Or.inr (Or.inr (Or.inr (Or.inr (Or.inr
          ⟨by cases ln <;> simp [missingOf], rfl⟩))))
      | some lmv =>
        cases ln with
        | none =>
          exact Or.inr (Or.inr (Or.inr (Or.inr (Or.inr
            ⟨by simp [missingOf], rfl⟩))))
        | some lnv =>
          refine Or.inr (Or.inr (Or.inl ⟨by simp [missingOf], rfl, f, lmv, lnv, rfl, rfl, rfl, ?_⟩))
          cases hF : get_tension lmv lnv f with
          | ok x => exact Or.inl ⟨x, rfl, by simp [step_primary, hF]⟩
          | error e => exact Or.inr ⟨e, rfl, by simp [step_primary, hF]⟩
    | some t =>
      cases lm with
      | none =>
        cases ln with
        | none =>
          exact Or.inr (Or.inr (Or.inr (Or.inr (Or.inr
            ⟨by simp [missingOf], rfl⟩))))
        | some lnv =>
          refine Or.inr (Or.inr (Or.inr (Or.inl
            ⟨by simp [missingOf], rfl, f, t, lnv, rfl, rfl, rfl, ?_⟩)))
          cases hF : get_linear_mass t lnv f with
          | ok x => exact Or.inl ⟨x, rfl, by simp [step_primary, hF]⟩
          | error e => exact Or.inr ⟨e, rfl, by simp [step_primary, hF]⟩
      | some lmv =>
        cases ln with
        | none =>
          refine Or.inr (Or.inr (Or.inr (Or.inr (Or.inl
            ⟨by simp [missingOf], rfl, f, t, lmv, rfl, rfl, rfl, ?_⟩))))
          cases hF : get_length lmv t f with
          | ok x => exact Or.inl ⟨x, rfl, by simp [step_primary, hF]⟩
          | error e => exact Or.inr ⟨e, rfl, by simp [step_primary, hF]⟩
        | some lnv =>
          exact Or.inl ⟨by simp [missingOf], rfl⟩

theorem step_radius_skip_radius (d : StringData) {r : ℝ} (h : d.radius = some r) :
    step_radius d = (d, none) := by
  obtain ⟨fq, tn, lm, ln, nt, oc, bf, dia, rad, vm⟩ := d
  simp at h
  subst h
  rfl

theorem step_radius_skip_vm (d : StringData) (h : d.volumic_mass = none) :
    step_radius d = (d, none) := by
  obtain ⟨fq, tn, lm, ln, nt, oc, bf, dia, rad, vm⟩ := d
  simp at h
  subst h
  cases rad <;> rfl

/-- Complete case analysis of the last block when it fires
(`radius` absent, `volumic_mass` present). -/
theorem step_radius_master (d : StringData) {v : ℝ}
    (hr : d.radius = none) (hv : d.volumic_mass = some v) :
    (d.linear_mass = none ∧ step_radius d = (d, some (.keyError "linear_mass")))
  ∨ (∃ lm, d.linear_mass = some lm
      ∧ ((∃ r, linear_mass_to_radius lm v = .ok r
            ∧ step_radius d = ({ d with radius := some r, diameter := some (r * 2) }, none))
        ∨ (∃ e, linear_mass_to_radius lm v = .error e ∧ step_radius d = (d, some e)))) := by
  obtain ⟨fq, tn, lm, ln, nt, oc, bf, dia, rad, vm⟩ := d
  simp at hr hv
  subst hr
  subst hv
  cases lm with
  | none => exact Or.inl ⟨rfl, rfl⟩
  | some lmv =>
    refine Or.inr ⟨lmv, rfl, ?_⟩
    cases hR : linear_mass_to_radius lmv v with
    | ok r => exact Or.inl ⟨r, rfl, by simp [step_radius, hR]⟩
    | error e => exact Or.inr ⟨e, rfl, by simp [step_radius, hR]⟩

/-- Any error raised by the last block is a `KeyError` or an arithmetic
error, and it leaves the dict unchanged. -/
theorem step_radius_err {d : StringData} {e : MError}
    (h : (step_radius d).2 = some e) :
    (e = .keyError "linear_mass" ∨ e = .divisionByZero ∨ e = .sqrtDomain)
  ∧ (step_radius d).1 = d := by
  cases hr : d.radius with
  | some r =>
    rw [step_radius_skip_radius d hr] at h
    cases h
  | none =>
    cases hv : d.volumic_mass with
    | none =>
      rw [step_radius_skip_vm d hv] at h
      cases h
    | some v =>
      rcases step_radius_master d hr hv with ⟨_, hs⟩ | ⟨lmv, _, ⟨r, _, hs⟩ | ⟨e', he', hs⟩⟩
      · rw [hs] at h ⊢
        exact ⟨Or.inl (Option.some.inj h).symm, rfl⟩
      · rw [hs] at h
        cases h
      · rw [hs] at h ⊢
        have : e' = e := Option.some.inj h
        subst this
        exact ⟨Or.inr (linear_mass_to_radius_err he'), rfl⟩

/-- The last block never touches the four primaries nor the note data. -/
theorem step_radius_frame (d : StringData) :
    (step_radius d).1.freq = d.freq ∧ (step_radius d).1.tension = d.tension
  ∧ (step_radius d).1.linear_mass = d.linear_mass ∧ (step_radius d).1.length = d.length
  ∧ (step_radius d).1.note = d.note ∧ (step_radius d).1.octave = d.octave
  ∧ (step_radius d).1.basefreq = d.basefreq
  ∧ (step_radius d).1.volumic_mass = d.volumic_mass := by
  cases hr : d.radius with
  | some r => rw [step_radius_skip_radius d hr]; exact ⟨rfl, rfl, rfl, rfl, rfl, rfl, rfl, rfl⟩
  | none =>
    cases hv : d.volumic_mass with
    | none => rw [step_radius_skip_vm d hv]; exact ⟨rfl, rfl, rfl, rfl, rfl, rfl, rfl, hv⟩
    | some v =>
      rcases step_radius_master d hr hv with ⟨_, hs⟩ | ⟨lmv, _, ⟨r, _, hs⟩ | ⟨e', _, hs⟩⟩ <;>
        rw [hs] <;> simp [hv]

/-- Errors from the fourth block leave the dict unchanged. -/
theorem step_primary_err_state {d : StringData} {e : MError}
    (h : (step_primary d).2 = some e) : (step_primary d).1 = d := by
  rcases step_primary_master d with ⟨_, hs⟩
    | ⟨_, _, t, lmv, lnv, _, _, _, ⟨x, _, hs⟩ | ⟨e', _, hs⟩⟩
    | ⟨_, _, f, lmv, lnv, _, _, _, ⟨x, _, hs⟩ | ⟨e', _, hs⟩⟩
    | ⟨_, _, f, t, lnv, _, _, _, ⟨x, _, hs⟩ | ⟨e', _, hs⟩⟩
    | ⟨_, _, f, t, lmv, _, _, _, ⟨x, _, hs⟩ | ⟨e', _, hs⟩⟩
    | ⟨_, hs⟩ <;>
    rw [hs] at h ⊢ <;> first | rfl | cases h

/-- The fourth block never touches the auxiliary parameters. -/
theorem step_primary_frame (d : StringData) :
    (step_primary d).1.note = d.note ∧ (step_primary d).1.octave = d.octave
  ∧ (step_primary d).1.basefreq = d.basefreq ∧ (step_primary d).1.diameter = d.diameter
  ∧ (step_primary d).1.radius = d.radius
  ∧ (step_primary d).1.volumic_mass = d.volumic_mass := by
  rcases step_primary_master d with ⟨_, hs⟩
    | ⟨_, _, t, lmv, lnv, _, _, _, ⟨x, _, hs⟩ | ⟨e', _, hs⟩⟩
    | ⟨_, _, f, lmv, lnv, _, _, _, ⟨x, _, hs⟩ | ⟨e', _, hs⟩⟩
    | ⟨_, _, f, t, lnv, _, _, _, ⟨x, _, hs⟩ | ⟨e', _, hs⟩⟩
    | ⟨_, _, f, t, lmv, _, _, _, ⟨x, _, hs⟩ | ⟨e', _, hs⟩⟩
    | ⟨_, hs⟩ <;>
    rw [hs] <;> exact ⟨rfl, rfl, rfl, rfl, rfl, rfl⟩

/-- The fourth block never overwrites a present primary. -/
theorem step_primary_keep (d : StringData) :
    (∀ x, d.freq = some x → (step_primary d).1.freq = some x)
  ∧ (∀ x, d.tension = some x → (step_primary d).1.tension = some x)
  ∧ (∀ x, d.linear_mass = some x → (step_primary d).1.linear_mass = some x)
  ∧ (∀ x, d.length = some x → (step_primary d).1.length = some x) := by
  obtain ⟨fq, tn, lm, ln, nt, oc, bf, dia, rad, vm⟩ := d
  rcases step_primary_master ⟨fq, tn, lm, ln, nt, oc, bf, dia, rad, vm⟩ with ⟨_, hs⟩
    | ⟨hm, hnone, t, lmv, lnv, _, _, _, ⟨x, _, hs⟩ | ⟨e', _, hs⟩⟩
    | ⟨hm, hnone, f, lmv, lnv, _, _, _, ⟨x, _, hs⟩ | ⟨e', _, hs⟩⟩
    | ⟨hm, hnone, f, t, lnv, _, _, _, ⟨x, _, hs⟩ | ⟨e', _, hs⟩⟩
    | ⟨hm, hnone, f, t, lmv, _, _, _, ⟨x, _, hs⟩ | ⟨e', _, hs⟩⟩
    | ⟨_, hs⟩ <;>
    rw [hs] <;>
    exact ⟨fun x hx => by simp_all, fun x hx => by simp_all,
      fun x hx => by simp_all, fun x hx => by simp_all⟩

theorem step_linmass_skip_rad (d : StringData) (h : d.radius = none) :
    step_linmass d = (d, none) := by
  obtain ⟨fq, tn, lm, ln, nt, oc, bf, dia, rad, vm⟩ := d
  simp at h
  subst h
  cases lm <;> rfl

/-- The dict state after the three auxiliary-derivation blocks
(note → freq, diameter → radius, radius → linear mass). -/
noncomputable def auxState (d : StringData) : StringData :=
  (step_linmass (step_diameter (step_note d).1)).1

theorem complete_data_decompose {d : StringData} (hn : (step_note d).2 = none) :
    complete_data d = raiseSeq (step_primary (auxState d)) step_radius := by
  rw [complete_data, raiseSeq_none hn, raiseSeq_none (step_linmass_snd _)]
  rfl

theorem step_radius_no_warn {d : StringData} :
    (step_radius d).2 ≠ some .nothingToCompute
  ∧ ∀ ms, (step_radius d).2 ≠ some (.underdetermined ms) := by
  constructor
  · intro h
    rcases (step_radius_err h).1 with h' | h' | h' <;> cases h'
  · intro ms h
    rcases (step_radius_err h).1 with h' | h' | h' <;> cases h'

theorem complete_single_ok {d A' : StringData}
    (hdec : complete_data d = raiseSeq (step_primary (auxState d)) step_radius)
    (hs : step_primary (auxState d) = (A', none))
    (h4 : A'.freq.isSome ∧ A'.tension.isSome ∧ A'.linear_mass.isSome ∧ A'.length.isSome) :
    ((complete_data d).2 ≠ some .nothingToCompute)
  ∧ (∀ ms, (complete_data d).2 ≠ some (.underdetermined ms))
  ∧ ((complete_data d).2 = none →
      (complete_data d).1.freq.isSome ∧ (complete_data d).1.tension.isSome
        ∧ (complete_data d).1.linear_mass.isSome ∧ (complete_data d).1.length.isSome) := by
  have hcd : complete_data d = step_radius A' := by
    rw [hdec, hs, raiseSeq_none rfl]
  refine ⟨?_, ?_, ?_⟩
  · rw [hcd]
    exact step_radius_no_warn.1
  · rw [hcd]
    exact step_radius_no_warn.2
  · intro _
    rw [hcd]
    obtain ⟨hf, ht, hlm, hln, _, _, _, _⟩ := step_radius_frame A'
    rw [hf, ht, hlm, hln]
    exact h4

theorem complete_single_err {d : StringData} {e' : MError}
    (hdec : complete_data d = raiseSeq (step_primary (auxState d)) step_radius)
    (hs : step_primary (auxState d) = (auxState d, some e'))
    (harith : e' = .divisionByZero ∨ e' = .sqrtDomain) :
    ((complete_data d).2 ≠ some .nothingToCompute)
  ∧ (∀ ms, (complete_data d).2 ≠ some (.underdetermined ms))
  ∧ (complete_data d).2 ≠ none := by
  have hcd : complete_data d = (auxState d, some e') := by
    rw [hdec, hs, raiseSeq_some rfl]
  rw [hcd]
  rcases harith with h | h <;> subst h <;>
    exact ⟨by simp, fun ms => by simp, by simp⟩

/-- C2: given the note-derivation block raises nothing, `complete_data`
raises the "Nothing to compute" warning exactly when no primary is missing
after auxiliary derivation, raises the underdetermined error listing the
missing names exactly when two or more primaries are missing, and
otherwise, on success, leaves all four primaries present; in particular an
input carrying only `freq` and `tension` fails naming `linear_mass` and
`length`. -/
theorem complete_data_missing_spec (d : StringData) (f t : ℝ)
    (hn : (step_note d).2 = none) :
    ((missingOf (auxState d) = [] ↔ (complete_data d).2 = some .nothingToCompute)
  ∧ (2 ≤ (missingOf (auxState d)).length →
      (complete_data d).2 = some (.underdetermined (missingOf (auxState d))))
  ∧ (∀ ms, (complete_data d).2 = some (.underdetermined ms) →
      ms = missingOf (auxState d) ∧ 2 ≤ ms.length)
  ∧ ((complete_data d).2 = none →
      (complete_data d).1.freq.isSome ∧ (complete_data d).1.tension.isSome
        ∧ (complete_data d).1.linear_mass.isSome ∧ (complete_data d).1.length.isSome))
  ∧ complete_data ⟨some f, some t, none, none, none, none, none, none, none, none⟩
      = (⟨some f, some t, none, none, none, none, none, none, none, none⟩,
          some (.underdetermined ["linear_mass", "length"])) := by
  have hdec := complete_data_decompose hn
  constructor
  · rcases step_primary_master (auxState d) with
      ⟨hm, hs⟩
      | ⟨hm, hmiss, t', lmv, lnv, ha1, ha2, ha3, ⟨x, hok, hs⟩ | ⟨e', herr, hs⟩⟩
      | ⟨hm, hmiss, f', lmv, lnv, ha1, ha2, ha3, ⟨x, hok, hs⟩ | ⟨e', herr, hs⟩⟩
      | ⟨hm, hmiss, f', t', lnv, ha1, ha2, ha3, ⟨x, hok, hs⟩ | ⟨e', herr, hs⟩⟩
      | ⟨hm, hmiss, f', t', lmv, ha1, ha2, ha3, ⟨x, hok, hs⟩ | ⟨e', herr, hs⟩⟩
      | ⟨hm, hs⟩
    -- all four primaries present
    · have hcd : complete_data d = (auxState d, some .nothingToCompute) := by
        rw [hdec, hs, raiseSeq_some rfl]
      refine ⟨iff_of_true hm (by rw [hcd]), ?_, ?_, ?_⟩
      · intro h
        rw [hm] at h
        norm_num at h
      · intro ms h
        rw [hcd] at h
        simp at h
      · intro h
        rw [hcd] at h
        simp at h
    -- freq missing, formula succeeds
    · have hhelp := complete_single_ok hdec hs (by simp [ha1, ha2, ha3])
      refine ⟨iff_of_false (by simp [hm]) hhelp.1, ?_,
        fun ms h => absurd h (hhelp.2.1 ms), hhelp.2.2⟩
      intro h
      rw [hm] at h
      norm_num at h
    -- freq missing, formula fails
    · have hhelp := complete_single_err hdec hs (get_freq_err herr)
      refine ⟨iff_of_false (by simp [hm]) hhelp.1, ?_,
        fun ms h => absurd h (hhelp.2.1 ms), fun h => absurd h hhelp.2.2⟩
      intro h
      rw [hm] at h
      norm_num at h
    -- tension missing, formula succeeds
    · have hhelp := complete_single_ok hdec hs (by simp [ha1, ha2, ha3])
      refine ⟨iff_of_false (by simp [hm]) hhelp.1, ?_,
        fun ms h => absurd h (hhelp.2.1 ms), hhelp.2.2⟩
      intro h
      rw [hm] at h
      norm_num at h
    -- tension missing, formula fails (impossible: get_tension is total)
    · exact absurd herr.symm (by exact fun h => get_tension_err h.symm)
    -- linear_mass missing, formula succeeds
    · have hhelp := complete_single_ok hdec hs (by simp [ha1, ha2, ha3])
      refine ⟨iff_of_false (by simp [hm]) hhelp.1, ?_,
        fun ms h => absurd h (hhelp.2.1 ms), hhelp.2.2⟩
      intro h
      rw [hm] at h
      norm_num at h
    -- linear_mass missing, formula fails
    · have hhelp := complete_single_err hdec hs (get_linear_mass_err herr)
      refine ⟨iff_of_false (by simp [hm]) hhelp.1, ?_,
        fun ms h => absurd h (hhelp.2.1 ms), fun h => absurd h hhelp.2.2⟩
      intro h
      rw [hm] at h
      norm_num at h
    -- length missing, formula succeeds
    · have hhelp := complete_single_ok hdec hs (by simp [ha1, ha2, ha3])
      refine ⟨iff_of_false (by simp [hm]) hhelp.1, ?_,
        fun ms h => absurd h (hhelp.2.1 ms), hhelp.2.2⟩
      intro h
      rw [hm] at h
      norm_num at h
    -- length missing, formula fails
    · have hhelp := complete_single_err hdec hs (get_length_err herr)
      refine ⟨iff_of_false (by simp [hm]) hhelp.1, ?_,
        fun ms h => absurd h (hhelp.2.1 ms), fun h => absurd h hhelp.2.2⟩
      intro h
      rw [hm] at h
      norm_num at h
    -- two or more primaries missing
    · have hcd : complete_data d = (auxState d, some (.underdetermined (missingOf (auxState d)))) := by
        rw [hdec, hs, raiseSeq_some rfl]
      refine ⟨?_, fun _ => by rw [hcd], ?_, ?_⟩
      · refine iff_of_false (fun h => ?_) (by rw [hcd]; simp)
        rw [h] at hm
        norm_num at hm
      · intro ms h
        rw [hcd] at h
        simp at h
        exact ⟨h.symm, h ▸ hm⟩
      · intro h
        rw [hcd] at h
        simp at h
  · rfl

theorem note_a_440 : note_to_freq "a" 4 440 = .ok 440 := by
  have hl : notes.lookup "a" = some 9 := by decide
  have he : (((4 : ℤ) : ℝ) - 4) + (((9 : ℕ) : ℝ) - 9) / 12 = 0 := by norm_num
  simp only [note_to_freq, hl, he, Real.rpow_zero, mul_one]

/-- C9: when `complete_data` raises the nothing-to-compute warning or the
underdetermined error, the auxiliary derivations already performed — `freq`
from `note`, `radius` from `diameter`, `linear_mass` from `radius` and
`volumic_mass` — remain stored in the dict handed back with the error. -/
theorem complete_data_not_atomic (d : StringData) (e : MError)
    (he : (complete_data d).2 = some e)
    (hkind : e = .nothingToCompute ∨ ∃ ms, e = .underdetermined ms) :
    (∀ nt fv, d.freq = none → d.note = some nt →
        note_to_freq nt (d.octave.getD 4) (d.basefreq.getD 440) = .ok fv →
        (complete_data d).1.freq = some fv)
  ∧ (∀ dia, d.diameter = some dia → (complete_data d).1.radius = some (dia / 2))
  ∧ (∀ r v, d.linear_mass = none → (step_diameter (step_note d).1).radius = some r →
        d.volumic_mass = some v →
        (complete_data d).1.linear_mass = some (v * Real.pi * r ^ 2)) := by
  have hn : (step_note d).2 = none := by
    cases hsn : (step_note d).2 with
    | none => rfl
    | some e0 =>
      have hcd : complete_data d = ((step_note d).1, some e0) := by
        rw [complete_data, raiseSeq_some hsn]
      rw [hcd] at he
      have he0 : e0 = e := Option.some.inj he
      subst he0
      obtain ⟨⟨k, hk⟩, _⟩ := step_note_err hsn
      rcases hkind with h | ⟨ms, h⟩ <;> rw [h] at hk <;> cases hk
  have hdec := complete_data_decompose hn
  have hst : (complete_data d).1 = auxState d := by
    cases hsp2 : (step_primary (auxState d)).2 with
    | none =>
      exfalso
      have hcd : complete_data d = step_radius ((step_primary (auxState d)).1) := by
        rw [hdec, raiseSeq_none hsp2]
      rw [hcd] at he
      rcases hkind with h | ⟨ms, h⟩ <;> subst h
      · exact step_radius_no_warn.1 he
      · exact step_radius_no_warn.2 ms he
    | some e1 =>
      have hcd : complete_data d = ((step_primary (auxState d)).1, some e1) := by
        rw [hdec, raiseSeq_some hsp2]
      rw [hcd]
      exact step_primary_err_state hsp2
  obtain ⟨n_t, n_lm, n_ln, n_nt, n_oc, n_bf, n_dia, n_rad, n_vm⟩ := step_note_frame d
  obtain ⟨di_f, di_t, di_lm, di_ln, di_nt, di_oc, di_bf, di_dia, di_vm⟩ :=
    step_diameter_frame (step_note d).1
  obtain ⟨li_f, li_t, li_ln, li_nt, li_oc, li_bf, li_dia, li_rad, li_vm⟩ :=
    step_linmass_frame (step_diameter (step_note d).1)
  refine ⟨?_, ?_, ?_⟩
  · intro nt fv hf hnt hok
    have h1 := step_note_derive d hf hnt hok
    rw [hst]
    show ((step_linmass (step_diameter (step_note d).1)).1).freq = some fv
    rw [li_f, di_f, h1]
  · intro dia hdia
    have h1 : (step_note d).1.diameter = some dia := by
      rw [n_dia]
      exact hdia
    have h2 := step_diameter_some _ h1
    rw [hst]
    show ((step_linmass (step_diameter (step_note d).1)).1).radius = some (dia / 2)
    rw [li_rad, h2]
  · intro r v hlm hr2 hv
    have hlm2 : (step_diameter (step_note d).1).linear_mass = none := by
      rw [di_lm, n_lm]
      exact hlm
    have hv2 : (step_diameter (step_note d).1).volumic_mass = some v := by
      rw [di_vm, n_vm]
      exact hv
    have h2 := step_linmass_derive _ hlm2 hr2 hv2
    rw [hst]
    show ((step_linmass (step_diameter (step_note d).1)).1).linear_mass
      = some (v * Real.pi * r ^ 2)
    rw [h2]

/-- Witness for C9: input with `note = "a"`, `diameter = 2`, a supplied
`radius = 5` (overwritten), `volumic_mass = 1`, no primaries — the
underdetermined error still leaves the derived `freq`, `radius` and
`linear_mass` in the dict. -/
theorem complete_data_not_atomic_witness :
    (complete_data ⟨none, none, none, none, some "a", none, none, some 2, some 5, some 1⟩).2
      = some (.underdetermined ["tension", "length"])
  ∧ (complete_data ⟨none, none, none, none, some "a", none, none, some 2, some 5, some 1⟩).1.freq
      = some 440
  ∧ (complete_data ⟨none, none, none, none, some "a", none, none, some 2, some 5, some 1⟩).1.radius
      = some (2 / 2)
  ∧ (complete_data ⟨none, none, none, none, some "a", none, none, some 2, some 5, some 1⟩).1.linear_mass
      = some (1 * Real.pi * (2 / 2) ^ 2) := by
  have h1 : step_note ⟨none, none, none, none, some "a", none, none, some 2, some 5, some 1⟩
      = (⟨some 440, none, none, none, some "a", none, none, some 2, some 5, some 1⟩, none) :=
    step_note_derive _ rfl rfl note_a_440
  have hn : (step_note ⟨none, none, none, none, some "a", none, none, some 2, some 5, some 1⟩).2
      = none := by
    rw [h1]
  have hA : auxState ⟨none, none, none, none, some "a", none, none, some 2, some 5, some 1⟩
      = ⟨some 440, none, some (1 * Real.pi * (2 / 2) ^ 2), none, some "a", none, none,
          some 2, some (2 / 2), some 1⟩ := by
    rw [auxState, h1]
    show (step_linmass (step_diameter
        ⟨some 440, none, none, none, some "a", none, none, some 2, some 5, some 1⟩)).1 = _
    rw [step_diameter_some _ rfl]
    rw [step_linmass_derive _ rfl rfl rfl]
  have he : (complete_data ⟨none, none, none, none, some "a", none, none, some 2, some 5, some 1⟩).2
      = some (.underdetermined ["tension", "length"]) := by
    rw [complete_data_decompose hn, hA]
    rfl
  refine ⟨he, ?_, ?_, ?_⟩
  · exact (complete_data_not_atomic _ _ he
      (Or.inr ⟨["tension", "length"], rfl⟩)).1 "a" 440 rfl rfl note_a_440
  · exact (complete_data_not_atomic _ _ he
      (Or.inr ⟨["tension", "length"], rfl⟩)).2.1 2 rfl
  · refine (complete_data_not_atomic _ _ he
      (Or.inr ⟨["tension", "length"], rfl⟩)).2.2 (2 / 2) 1 rfl ?_ rfl
    rw [h1]
    show (step_diameter
        ⟨some 440, none, none, none, some "a", none, none, some 2, some 5, some 1⟩).radius
      = some (2 / 2)
    rw [step_diameter_some _ rfl]

/-- C10: on success every supplied parameter keeps its input value in the
output, with one exception — a supplied `radius` is only guaranteed kept
when `diameter` is absent, because a present `diameter` overwrites it with
`diameter / 2`. -/
theorem complete_data_no_overwrite (d : StringData)
    (hc : (complete_data d).2 = none) :
    (∀ x, d.freq = some x → (complete_data d).1.freq = some x)
  ∧ (∀ x, d.tension = some x → (complete_data d).1.tension = some x)
  ∧ (∀ x, d.linear_mass = some x → (complete_data d).1.linear_mass = some x)
  ∧ (∀ x, d.length = some x → (complete_data d).1.length = some x)
  ∧ (∀ x, d.note = some x → (complete_data d).1.note = some x)
  ∧ (∀ x, d.octave = some x → (complete_data d).1.octave = some x)
  ∧ (∀ x, d.basefreq = some x → (complete_data d).1.basefreq = some x)
  ∧ (∀ x, d.volumic_mass = some x → (complete_data d).1.volumic_mass = some x)
  ∧ (∀ x, d.diameter = some x → (complete_data d).1.diameter = some x)
  ∧ (∀ x, d.radius = some x → d.diameter = none → (complete_data d).1.radius = some x) := by
  have hn : (step_note d).2 = none := by
    cases hsn : (step_note d).2 with
    | none => rfl
    | some e0 =>
      rw [complete_data, raiseSeq_some hsn] at hc
      simp at hc
  have hdec := complete_data_decompose hn
  cases hsp : (step_primary (auxState d)).2 with
  | some e1 =>
    rw [hdec, raiseSeq_some hsp] at hc
    simp at hc
  | none =>
  have hout : complete_data d = step_radius ((step_primary (auxState d)).1) := by
    rw [hdec, raiseSeq_none hsp]
  obtain ⟨n_t, n_lm, n_ln, n_nt, n_oc, n_bf, n_dia, n_rad, n_vm⟩ := step_note_frame d
  obtain ⟨di_f, di_t, di_lm, di_ln, di_nt, di_oc, di_bf, di_dia, di_vm⟩ :=
    step_diameter_frame (step_note d).1
  obtain ⟨li_f, li_t, li_ln, li_nt, li_oc, li_bf, li_dia, li_rad, li_vm⟩ :=
    step_linmass_frame (step_diameter (step_note d).1)
  obtain ⟨p_nt, p_oc, p_bf, p_dia, p_rad, p_vm⟩ := step_primary_frame (auxState d)
  obtain ⟨pk_f, pk_t, pk_lm, pk_ln⟩ := step_primary_keep (auxState d)
  obtain ⟨r_f, r_t, r_lm, r_ln, r_nt, r_oc, r_bf, r_vm⟩ :=
    step_radius_frame ((step_primary (auxState d)).1)
  refine ⟨?_, ?_, ?_, ?_, ?_, ?_, ?_, ?_, ?_, ?_⟩
  · intro x hx
    have h3 : (auxState d).freq = some x := by
      show ((step_linmass (step_diameter (step_note d).1)).1).freq = some x
      rw [li_f, di_f, step_note_freq_some d hx]
      exact hx
    rw [hout, r_f]
    exact pk_f x h3
  · intro x hx
    have h3 : (auxState d).tension = some x := by
      show ((step_linmass (step_diameter (step_note d).1)).1).tension = some x
      rw [li_t, di_t, n_t]
      exact hx
    rw [hout, r_t]
    exact pk_t x h3
  · intro x hx
    have h2 : (step_diameter (step_note d).1).linear_mass = some x := by
      rw [di_lm, n_lm]
      exact hx
    have h3 : (auxState d).linear_mass = some x := by
      show ((step_linmass (step_diameter (step_note d).1)).1).linear_mass = some x
      rw [step_linmass_some _ h2]
      exact h2
    rw [hout, r_lm]
    exact pk_lm x h3
  · intro x hx
    have h3 : (auxState d).length = some x := by
      show ((step_linmass (step_diameter (step_note d).1)).1).length = some x
      rw [li_ln, di_ln, n_ln]
      exact hx
    rw [hout, r_ln]
    exact pk_ln x h3
  · intro x hx
    rw [hout, r_nt, p_nt]
    show ((step_linmass (step_diameter (step_note d).1)).1).note = some x
    rw [li_nt, di_nt, n_nt]
    exact hx
  · intro x hx
    rw [hout, r_oc, p_oc]
    show ((step_linmass (step_diameter (step_note d).1)).1).octave = some x
    rw [li_oc, di_oc, n_oc]
    exact hx
  · intro x hx
    rw [hout, r_bf, p_bf]
    show ((step_linmass (step_diameter (step_note d).1)).1).basefreq = some x
    rw [li_bf, di_bf, n_bf]
    exact hx
  · intro x hx
    rw [hout, r_vm, p_vm]
    show ((step_linmass (step_diameter (step_note d).1)).1).volumic_mass = some x
    rw [li_vm, di_vm, n_vm]
    exact hx
  · intro x hx
    have h1 : (step_note d).1.diameter = some x := by
      rw [n_dia]
      exact hx
    have h2 := step_diameter_some _ h1
    have hBr : ((step_primary (auxState d)).1).radius = some (x / 2) := by
      rw [p_rad]
      show ((step_linmass (step_diameter (step_note d).1)).1).radius = some (x / 2)
      rw [li_rad, h2]
    rw [hout, step_radius_skip_radius _ hBr]
    show ((step_primary (auxState d)).1).diameter = some x
    rw [p_dia]
    show ((step_linmass (step_diameter (step_note d).1)).1).diameter = some x
    rw [li_dia, h2]
    exact h1
  · intro x hx hdia
    have h1d : (step_note d).1.diameter = none := by
      rw [n_dia]
      exact hdia
    have h1r : (step_note d).1.radius = some x := by
      rw [n_rad]
      exact hx
    have h2 := step_diameter_none _ h1d
    have hBr : ((step_primary (auxState d)).1).radius = some x := by
      rw [p_rad]
      show ((step_linmass (step_diameter (step_note d).1)).1).radius = some x
      rw [li_rad, h2]
      exact h1r
    rw [hout, step_radius_skip_radius _ hBr]
    exact hBr

/-- Witness for C10 at the input `{freq = 1, tension = 4, linear_mass = 1}`
(length computed, everything supplied kept). -/
theorem complete_data_no_overwrite_witness :
    (complete_data ⟨some 1, some 4, some 1, none, none, none, none, none, none, none⟩).2 = none
  ∧ (complete_data ⟨some 1, some 4, some 1, none, none, none, none, none, none, none⟩).1.freq
      = some 1
  ∧ (complete_data ⟨some 1, some 4, some 1, none, none, none, none, none, none, none⟩).1.tension
      = some 4
  ∧ (complete_data ⟨some 1, some 4, some 1, none, none, none, none, none, none, none⟩).1.linear_mass
      = some 1 := by
  have hL : get_length 1 4 1 = .ok (Real.sqrt (4 / 1) / (2 * 1)) :=
    get_length_ok one_ne_zero one_ne_zero (by norm_num)
  have hsp : step_primary ⟨some 1, some 4, some 1, none, none, none, none, none, none, none⟩
      = (⟨some 1, some 4, some 1, some (Real.sqrt (4 / 1) / (2 * 1)),
          none, none, none, none, none, none⟩, none) := by
    simp [step_primary, hL]
  have hc : complete_data ⟨some 1, some 4, some 1, none, none, none, none, none, none, none⟩
      = (⟨some 1, some 4, some 1, some (Real.sqrt (4 / 1) / (2 * 1)),
          none, none, none, none, none, none⟩, none) := by
    rw [complete_data, raiseSeq_none rfl, raiseSeq_none (step_linmass_snd _)]
    have h1 : (step_linmass (step_diameter
        (step_note ⟨some 1, some 4, some 1, none, none, none, none, none, none, none⟩).1)).1
        = ⟨some 1, some 4, some 1, none, none, none, none, none, none, none⟩ := rfl
    rw [h1, hsp, raiseSeq_none rfl]
    rfl
  refine ⟨by rw [hc], ?_, ?_, ?_⟩
  · exact (complete_data_no_overwrite _ (by rw [hc])).1 1 rfl
  · exact (complete_data_no_overwrite _ (by rw [hc])).2.1 4 rfl
  · exact (complete_data_no_overwrite _ (by rw [hc])).2.2.1 1 rfl

/-- C8 (counterexample): an input supplying `radius` (without `diameter`)
together with `freq`, `tension` and `volumic_mass` resolves successfully,
with `radius` present in the output but no `diameter` at all. -/
theorem complete_radius_without_diameter :
    (complete_data ⟨some 1, some 1, none, none, none, none, none, none, some 1, some 1⟩).2 = none
  ∧ (complete_data ⟨some 1, some 1, none, none, none, none, none, none, some 1, some 1⟩).1.radius
      = some 1
  ∧ (complete_data ⟨some 1, some 1, none, none, none, none, none, none, some 1, some 1⟩).1.diameter
      = none := by
  have hL : get_length (1 * Real.pi * 1 ^ 2) 1 1
      = .ok (Real.sqrt (1 / (1 * Real.pi * 1 ^ 2)) / (2 * 1)) :=
    get_length_ok one_ne_zero (by positivity) (by positivity)
  have hsl : step_linmass ⟨some 1, some 1, none, none, none, none, none, none, some 1, some 1⟩
      = (⟨some 1, some 1, some (1 * Real.pi * 1 ^ 2), none, none, none, none, none,
          some 1, some 1⟩, none) :=
    step_linmass_derive _ rfl rfl rfl
  have hsp : step_primary ⟨some 1, some 1, some (1 * Real.pi * 1 ^ 2), none,
        none, none, none, none, some 1, some 1⟩
      = (⟨some 1, some 1, some (1 * Real.pi * 1 ^ 2),
          some (Real.sqrt (1 / (1 * Real.pi * 1 ^ 2)) / (2 * 1)),
          none, none, none, none, some 1, some 1⟩, none) := by
    simp only [step_primary]
    rw [hL]
  have hc : complete_data ⟨some 1, some 1, none, none, none, none, none, none, some 1, some 1⟩
      = (⟨some 1, some 1, some (1 * Real.pi * 1 ^ 2),
          some (Real.sqrt (1 / (1 * Real.pi * 1 ^ 2)) / (2 * 1)),
          none, none, none, none, some 1, some 1⟩, none) := by
    rw [complete_data, raiseSeq_none rfl, raiseSeq_none (step_linmass_snd _)]
    have h1 : (step_linmass (step_diameter
        (step_note ⟨some 1, some 1, none, none, none, none, none, none, some 1, some 1⟩).1)).1
        = ⟨some 1, some 1, some (1 * Real.pi * 1 ^ 2), none, none, none, none, none,
            some 1, some 1⟩ := by
      show (step_linmass ⟨some 1, some 1, none, none, none, none, none, none, some 1, some 1⟩).1
        = _
      rw [hsl]
    rw [h1, hsp, raiseSeq_none rfl]
    rfl
  exact ⟨by rw [hc], by rw [hc], by rw [hc]⟩

/-- C8 (amended): on success, whenever the input supplied `diameter`, or did
not supply `radius`, a `radius` present in the output comes with a
`diameter` satisfying `diameter = radius × 2` (equivalently
`radius = diameter / 2`).  The restriction is forced by the counterexample:
a `radius` supplied without a `diameter` is kept with no diameter derived. -/
theorem complete_radius_diameter_consistent (d : StringData)
    (hc : (complete_data d).2 = none)
    (hpre : d.diameter.isSome ∨ d.radius = none) :
    ∀ r, (complete_data d).1.radius = some r →
      (complete_data d).1.diameter = some (r * 2) := by
  have hn : (step_note d).2 = none := by
    cases hsn : (step_note d).2 with
    | none => rfl
    | some e0 =>
      rw [complete_data, raiseSeq_some hsn] at hc
      simp at hc
  have hdec := complete_data_decompose hn
  cases hsp : (step_primary (auxState d)).2 with
  | some e1 =>
    rw [hdec, raiseSeq_some hsp] at hc
    simp at hc
  | none =>
  have hout : complete_data d = step_radius ((step_primary (auxState d)).1) := by
    rw [hdec, raiseSeq_none hsp]
  obtain ⟨n_t, n_lm, n_ln, n_nt, n_oc, n_bf, n_dia, n_rad, n_vm⟩ := step_note_frame d
  obtain ⟨li_f, li_t, li_ln, li_nt, li_oc, li_bf, li_dia, li_rad, li_vm⟩ :=
    step_linmass_frame (step_diameter (step_note d).1)
  obtain ⟨p_nt, p_oc, p_bf, p_dia, p_rad, p_vm⟩ := step_primary_frame (auxState d)
  intro r hr
  cases hdiac : d.diameter with
  | some dia =>
    have h1 : (step_note d).1.diameter = some dia := by
      rw [n_dia]
      exact hdiac
    have h2 := step_diameter_some _ h1
    have hBr : ((step_primary (auxState d)).1).radius = some (dia / 2) := by
      rw [p_rad]
      show ((step_linmass (step_diameter (step_note d).1)).1).radius = some (dia / 2)
      rw [li_rad, h2]
    have hBd : ((step_primary (auxState d)).1).diameter = some dia := by
      rw [p_dia]
      show ((step_linmass (step_diameter (step_note d).1)).1).diameter = some dia
      rw [li_dia, h2]
      exact h1
    rw [hout, step_radius_skip_radius _ hBr] at hr ⊢
    have hr2 : ((step_primary (auxState d)).1).radius = some r := hr
    rw [hBr] at hr2
    have hrd : dia / 2 = r := Option.some.inj hr2
    show ((step_primary (auxState d)).1).diameter = some (r * 2)
    rw [hBd, ← hrd, div_mul_cancel₀ dia two_ne_zero]
  | none =>
    have hrad : d.radius = none := by
      rcases hpre with h | h
      · rw [hdiac] at h
        simp at h
      · exact h
    have h1d : (step_note d).1.diameter = none := by
      rw [n_dia]
      exact hdiac
    have h1r : (step_note d).1.radius = none := by
      rw [n_rad]
      exact hrad
    have h2 := step_diameter_none _ h1d
    have hBr : ((step_primary (auxState d)).1).radius = none := by
      rw [p_rad]
      show ((step_linmass (step_diameter (step_note d).1)).1).radius = none
      rw [li_rad, h2]
      exact h1r
    rw [hout] at hr hc ⊢
    cases hBv : ((step_primary (auxState d)).1).volumic_mass with
    | none =>
      rw [step_radius_skip_vm _ hBv] at hr
      have hr2 : ((step_primary (auxState d)).1).radius = some r := hr
      rw [hBr] at hr2
      exact Option.noConfusion hr2
    | some v =>
      rcases step_radius_master _ hBr hBv with ⟨_, hs⟩ | ⟨lmB, _, ⟨r', hokB, hs⟩ | ⟨e2, _, hs⟩⟩
      · rw [hs] at hc
        simp at hc
      · rw [hs] at hr ⊢
        have hr2 : r' = r := by
          simpa using hr
        rw [← hr2]
      · rw [hs] at hc
        simp at hc

/-- Witness for C8's amended theorem: `diameter = 2` supplied, `length`
computed — the output radius `2/2` pairs with diameter `(2/2) × 2`. -/
theorem complete_radius_diameter_consistent_witness :
    (complete_data ⟨some 1, some 1, some 1, none, none, none, none, some 2, none, none⟩).2 = none
  ∧ (complete_data ⟨some 1, some 1, some 1, none, none, none, none, some 2, none, none⟩).1.radius
      = some (2 / 2)
  ∧ (complete_data ⟨some 1, some 1, some 1, none, none, none, none, some 2, none, none⟩).1.diameter
      = some ((2 / 2) * 2) := by
  have hL : get_length 1 1 1 = .ok (Real.sqrt (1 / 1) / (2 * 1)) :=
    get_length_ok one_ne_zero one_ne_zero (by norm_num)
  have hsp : step_primary ⟨some 1, some 1, some 1, none, none, none, none, some 2,
        some (2 / 2), none⟩
      = (⟨some 1, some 1, some 1, some (Real.sqrt (1 / 1) / (2 * 1)),
          none, none, none, some 2, some (2 / 2), none⟩, none) := by
    simp only [step_primary]
    rw [hL]
  have hc : complete_data ⟨some 1, some 1, some 1, none, none, none, none, some 2, none, none⟩
      = (⟨some 1, some 1, some 1, some (Real.sqrt (1 / 1) / (2 * 1)),
          none, none, none, some 2, some (2 / 2), none⟩, none) := by
    rw [complete_data, raiseSeq_none rfl, raiseSeq_none (step_linmass_snd _)]
    have h1 : (step_linmass (step_diameter
        (step_note ⟨some 1, some 1, some 1, none, none, none, none, some 2, none, none⟩).1)).1
        = ⟨some 1, some 1, some 1, none, none, none, none, some 2, some (2 / 2), none⟩ := rfl
    rw [h1, hsp, raiseSeq_none rfl]
    rfl
  refine ⟨by rw [hc], by rw [hc], ?_⟩
  exact complete_radius_diameter_consistent
    ⟨some 1, some 1, some 1, none, none, none, none, some 2, none, none⟩
    (by rw [hc]) (Or.inl rfl) (2 / 2) (by rw [hc])

/-- Witness for C2 at the empty input: all four primaries are missing and
the underdetermined error names all four. -/
theorem complete_data_missing_spec_witness :
    (complete_data ⟨none, none, none, none, none, none, none, none, none, none⟩).2
      = some (.underdetermined ["freq", "tension", "linear_mass", "length"]) := by
  have h := (complete_data_missing_spec
    ⟨none, none, none, none, none, none, none, none, none, none⟩ 1 1 rfl).1.2.1
  have hm : missingOf (auxState ⟨none, none, none, none, none, none, none, none, none, none⟩)
      = ["freq", "tension", "linear_mass", "length"] := rfl
  rw [hm] at h
  exact h (by norm_num)
